import Mathlib

/-!
Shallow embedding of `src/fermpi.py` (FermPi fermentation controller).

Modelling conventions:
- Temperatures are integers in hundredths of a degree Celsius
  (centidegrees). The Python source computes with floats, but every
  temperature decision in the source is an order comparison between sensor
  readings and values obtained by subtracting a decimal constant
  (`self._overshoot`, `0.10`) from the target; the exact scaling by 100
  represents all these decimal constants and comparisons exactly
  (`0.10` becomes `10`, an overshoot of `0.5` becomes `50`).
- Unix timestamps and durations (minutes) are `Int`. Python 2 integer
  division `/` on ints is floor division, embedded as `Int.fdiv`.
- A controller thread is modelled by the mutable fields of
  `FermentationThread` that the control loop touches (`_heater`, `_state`,
  `_target`, `_duration`, `_overshoot`, `_timestamp`) plus the physical
  GPIO line level commanded through `GPIO.output` (`gpioLow`; the relay is
  low-active, so `gpioLow = true` means the heater element is powered).
- Exceptions are explicit: `_heater_off` contains the statement
  `self._heater = HEATER_OFF` where `HEATER_OFF` is a bare name that is
  neither a local, nor a module global, nor a builtin (class attributes
  are not in scope as bare names inside a method body in Python), so the
  call raises `NameError` after the GPIO write. Name resolution is
  embedded explicitly (`resolveName`).
- One iteration of a mode thread main loop ("cycle") is a function from
  the thread state, the primary sensor current/previous reading and the
  cycle timestamp to a `StepOut`: continue the loop, break out of it
  (reaching the configuration-reset epilogue), or die with an uncaught
  exception.
- A whole run of the loop is a fold over a finite trace of cycle inputs;
  each input also records whether the stop event was set when the loop
  condition `not self.event.is_set()` was evaluated.
-/

/-- Python exceptions that the embedded code can raise. -/
inductive PyError where
  | nameError
  | unboundLocalError
deriving Repr, DecidableEq

/-- Mutable state of a `FermentationThread` object together with the
physical GPIO line it commands. Field `heater` is `self._heater`
(`true` = `HEATER_ON`), `gpioLow` is the physical line level commanded via
`GPIO.output` (the relay is low-active: `gpioLow = true` powers the
heater), `state` is `self._state`, `target`, `duration`, `overshoot` and
`timestamp` are the corresponding `_`-fields; `target` and `overshoot`
are in centidegrees. -/
structure ThreadState where
  heater : Bool
  gpioLow : Bool
  state : Nat
  target : Int
  duration : Int
  overshoot : Int
  timestamp : Int
deriving Repr, DecidableEq

/-- Controller state constant `FermentationThread.IDLE`. -/
def IDLE : Nat := 0

/-- Controller state constant `FermentationThread.HEATING`. -/
def HEATING : Nat := 1

/-- Controller state constant `FermentationThread.WAITING_FOR_PEAK`. -/
def WAITING_FOR_PEAK : Nat := 2

/-- Controller state constant `FermentationThread.WAITING_FOR_TROUGH`. -/
def WAITING_FOR_TROUGH : Nat := 3

/-- Names bound at module level in fermpi.py (imports, constants, classes,
functions, the global `thread`). Used to decide bare-name lookups. -/
def moduleGlobals : List String :=
  ["pdb", "sys", "signal", "logging", "threading", "mdb", "datetime",
   "mktime", "sleep", "OptionParser", "W1ThermSensor",
   "HEATER_GPIO", "DB_HOST", "DB_USER", "DB_PWD", "DB_NAME",
   "FPI_STATE_OFF", "FPI_STATE_ON",
   "FPI_MODE_IDLE", "FPI_MODE_CONSTANT", "FPI_MODE_GRADUAL",
   "thread", "FermentationThread", "IdleMode", "ConstantMode",
   "GradualMode", "heater_off", "on_exit", "read_configuration", "main"]

/-- Local names bound in the body of the method `_heater_off` (line 198):
only the parameter `self`. -/
def heaterOffLocals : List String := ["self"]

/-- The bare name referenced on line 205, `self._heater = HEATER_OFF`. -/
def heaterOffName : String := "HEATER_OFF"

/-- Python bare-name resolution inside a method body: locals, then module
globals (class attributes are not searched for bare names). Builtins hold
no user constants, so they are irrelevant here. -/
def resolveName (locals : List String) (n : String) : Bool :=
  locals.contains n || moduleGlobals.contains n

/-- Method `_heater_on` (lines 189-196): `GPIO.output(self._gpio, GPIO.LOW)`
(relay low-active, heater powered), then `self._heater = self.HEATER_ON`. -/
def heater_on (s : ThreadState) : ThreadState :=
  { s with gpioLow := true, heater := true }

/-- The effect of `GPIO.output(self._gpio, GPIO.HIGH)` alone: the relay is
low-active, so the heater element is unpowered. -/
def driveHigh (s : ThreadState) : ThreadState :=
  { s with gpioLow := false }

/-- Method `_heater_off` (lines 198-205): first
`GPIO.output(self._gpio, GPIO.HIGH)` (relay off), then
`self._heater = HEATER_OFF`. The right-hand side is a bare-name lookup of
`HEATER_OFF`: if it resolved, the stored heater state would be cleared;
since it does not resolve, a `NameError` is raised and the method never
returns normally. -/
def heater_off (s : ThreadState) : Except (PyError × ThreadState) ThreadState :=
  if resolveName heaterOffLocals heaterOffName then
    Except.ok { driveHigh s with heater := false }
  else
    Except.error (PyError.nameError, driveHigh s)

/-- Outcome of one iteration of a mode thread main loop body. -/
inductive StepOut where
  | cont (s : ThreadState)
  | brk (s : ThreadState)
  | exn (e : PyError) (s : ThreadState)
deriving Repr, DecidableEq

/-- The thread state carried by any `StepOut` constructor. -/
def StepOut.stateOf : StepOut → ThreadState
  | .cont s => s
  | .brk s => s
  | .exn _ s => s

/-- Whether a `StepOut` is the loop-continuing outcome. -/
def StepOut.isCont : StepOut → Bool
  | .cont _ => true
  | _ => false

/-- Lines 354-356 (and 529-531): `if self._sensors[0][2] >= self._target:`
sets `self._timestamp = ts`; the following `self._state == self.IDLE` is a
comparison, not an assignment, hence a no-op. -/
def attainedCheck (s : ThreadState) (C : Int) (ts : Int) : StepOut :=
  if s.target ≤ C then StepOut.cont { s with timestamp := ts }
  else StepOut.cont s

/-- Climb-phase body, lines 339-356 of `ConstantMode.run`, identical to
lines 514-531 of `GradualMode.run`. Executed when `self._timestamp == 0`.
Branches, with current reading `C` and previous reading `P`:
if `C < target - overshoot`, switch the heater on (if off) and set state
`HEATING`; elif `C < P`, switch the heater on (if off), wait 20 s, set
state `HEATING`; elif the heater is on, call `_heater_off`, which raises
`NameError` (the subsequent `self._state == self.WAITING_FOR_PEAK` is a
no-op comparison and is not reached). Finally the attained check runs. -/
def climbStep (s : ThreadState) (C P : Int) (ts : Int) : StepOut :=
  if C < s.target - s.overshoot then
    attainedCheck (if s.heater = false then { heater_on s with state := HEATING } else s) C ts
  else if C < P then
    attainedCheck (if s.heater = false then { heater_on s with state := HEATING } else s) C ts
  else if s.heater = true then
    match heater_off s with
    | Except.error (e, s1) => StepOut.exn e s1
    | Except.ok s1 => attainedCheck s1 C ts
  else
    attainedCheck s C ts

/-- Re-arm check, lines 375-383 of `ConstantMode.run` (identical to lines
551-559 of `GradualMode.run`): if `C <= target - 0.10` and `C < P`, run the
pulse `_heater_on(); event.wait(10); _heater_off()`; `_heater_off` raises
`NameError`, so the assignment `self._state = self.WAITING_FOR_PEAK` that
follows it is never reached. -/
def rearmCheck (s : ThreadState) (C P : Int) : StepOut :=
  if C ≤ s.target - 10 then
    if C < P then
      match heater_off (heater_on s) with
      | Except.error (e, s1) => StepOut.exn e s1
      | Except.ok s1 => StepOut.cont { s1 with state := WAITING_FOR_PEAK }
    else StepOut.cont s
  else StepOut.cont s

/-- Maintain-phase body of `ConstantMode.run`, lines 358-383. With a
positive duration, `m = (ts - timestamp) / 60` (Python 2 floor division);
on `m >= duration`: if the heater is on, `_heater_off()` raises
`NameError` (and even on a hypothetical normal return, the next statement
`sefl._state = self.IDLE` misspells `self` and raises `NameError`);
otherwise `break` leaves the loop normally. Below the limit the re-arm
check runs. -/
def constantMaintain (s : ThreadState) (C P : Int) (ts : Int) : StepOut :=
  if 0 < s.duration then
    if s.duration ≤ Int.fdiv (ts - s.timestamp) 60 then
      if s.heater = true then
        match heater_off s with
        | Except.error (e, s1) => StepOut.exn e s1
        | Except.ok s1 => StepOut.exn PyError.nameError s1
      else StepOut.brk s
    else rearmCheck s C P
  else rearmCheck s C P

/-- One row of the `fermentations` table as read by `GradualMode`: columns
2..11 are up to five (target, duration) pairs; a column can be NULL.
Targets are in centidegrees. -/
abbrev LevelRow := List (Option Int × Option Int)

/-- The scan loop of `_get_next_level`, lines 468-481: `i` runs over the
level columns in order; `row[i] >= self._target` with `self._target`
freshly reset to 0 (a Python 2 comparison where `None` is less than every
number, so NULL targets are skipped); on the first hit the target and, if
not NULL, the duration are taken and the loop breaks with `bNext = True`. -/
def scanLevels (t : Int) (d : Int) : LevelRow → Bool × Int × Int
  | [] => (false, t, d)
  | (tgt, dur) :: rest =>
    match tgt with
    | none => scanLevels t d rest
    | some x => if t ≤ x then (true, x, dur.getD d) else scanLevels t d rest

/-- Method `GradualMode._get_next_level`, lines 455-486: resets
`self._target = 0`, `self._duration = 0`, `self._timestamp = 0`, re-reads
the fermentation row, then scans the (at most five) level columns for the
first entry with `row[i] >= self._target` (that is, `>= 0`). Returns the
`bNext` flag and the updated thread state. -/
def get_next_level (row : Option LevelRow) (s : ThreadState) : Bool × ThreadState :=
  let s0 : ThreadState := { s with target := 0, duration := 0, timestamp := 0 }
  match row with
  | none => (false, s0)
  | some levels =>
    let r := scanLevels s0.target s0.duration (levels.take 5)
    (r.1, { s0 with target := r.2.1, duration := r.2.2 })

/-- Maintain-phase body of `GradualMode.run`, lines 533-559. On duration
expiry, `_get_next_level()` runs; if it returns `False` the thread ends
(via `_heater_off` and its `NameError` if the heater is on, else via
`break`); if it returns `True` the loop falls through to the re-arm check
with the updated target/duration. -/
def gradualMaintain (row : Option LevelRow) (s : ThreadState) (C P : Int) (ts : Int) : StepOut :=
  if 0 < s.duration then
    if s.duration ≤ Int.fdiv (ts - s.timestamp) 60 then
      match get_next_level row s with
      | (false, s1) =>
        if s1.heater = true then
          match heater_off s1 with
          | Except.error (e, s2) => StepOut.exn e s2
          | Except.ok s2 => StepOut.exn PyError.nameError s2
        else StepOut.brk s1
      | (true, s1) => rearmCheck s1 C P
    else rearmCheck s C P
  else rearmCheck s C P

/-- One full loop-body iteration of `ConstantMode.run` (lines 326-396),
after the sensor read and telemetry insert: climb phase while
`self._timestamp == 0`, maintain phase otherwise. -/
def constantStep (s : ThreadState) (C P : Int) (ts : Int) : StepOut :=
  if s.timestamp = 0 then climbStep s C P ts else constantMaintain s C P ts

/-- One full loop-body iteration of `GradualMode.run` (lines 501-572). -/
def gradualStep (row : Option LevelRow) (s : ThreadState) (C P : Int) (ts : Int) : StepOut :=
  if s.timestamp = 0 then climbStep s C P ts else gradualMaintain row s C P ts

/-- Input of one cycle: whether `self.event.is_set()` held when the loop
condition was evaluated, the fresh primary-sensor reading (centidegrees),
and the cycle timestamp `ts`. The previous reading is threaded by the run
function (sensors are initialised with current and previous values 0.0). -/
structure CycleIn where
  cancelled : Bool
  reading : Int
  ts : Int
deriving Repr, DecidableEq

/-- Outcome of running a mode thread main loop over a finite input trace.
`cancelledExit`: the loop condition saw the stop event set, the loop ends
and the configuration-reset epilogue runs. `normalExit`: a `break` ended
the loop, the epilogue runs. `crashed`: an uncaught exception killed the
thread before the epilogue. `outOfTrace`: the trace is exhausted with the
loop still live. -/
inductive RunOut where
  | cancelledExit (s : ThreadState) (prev : Int)
  | normalExit (s : ThreadState)
  | crashed (e : PyError) (s : ThreadState)
  | outOfTrace (s : ThreadState) (prev : Int)
deriving Repr, DecidableEq

/-- The thread state carried by any `RunOut` constructor. -/
def RunOut.stateOf : RunOut → ThreadState
  | .cancelledExit s _ => s
  | .normalExit s => s
  | .crashed _ s => s
  | .outOfTrace s _ => s

/-- The main loop of `ConstantMode.run` over a finite trace of cycle
inputs. `prev` is the previous primary-sensor reading
(`self._sensors[0][3]`), initially 0.0. -/
def constantRun (s : ThreadState) (prev : Int) : List CycleIn → RunOut
  | [] => RunOut.outOfTrace s prev
  | c :: rest =>
    if c.cancelled then RunOut.cancelledExit s prev
    else
      match constantStep s c.reading prev c.ts with
      | StepOut.cont s1 => constantRun s1 c.reading rest
      | StepOut.brk s1 => RunOut.normalExit s1
      | StepOut.exn e s1 => RunOut.crashed e s1

/-- The main loop of `GradualMode.run` over a finite trace of cycle
inputs. -/
def gradualRun (row : Option LevelRow) (s : ThreadState) (prev : Int) :
    List CycleIn → RunOut
  | [] => RunOut.outOfTrace s prev
  | c :: rest =>
    if c.cancelled then RunOut.cancelledExit s prev
    else
      match gradualStep row s c.reading prev c.ts with
      | StepOut.cont s1 => gradualRun row s1 c.reading rest
      | StepOut.brk s1 => RunOut.normalExit s1
      | StepOut.exn e s1 => RunOut.crashed e s1

/-- Signal handler `on_exit` (lines 588-612): sets the stop event of the
running thread if any, joins it until it is no longer alive, then calls
the module-level `heater_off()` which executes
`GPIO.output(HEATER_GPIO, GPIO.HIGH)` unconditionally, and exits. Whatever
outcome the joined thread ended in, the GPIO line level at process exit is
HIGH, that is `gpioLow = false`. -/
def on_exit (_r : RunOut) : Bool :=
  false

/-- Invariant of a live `ConstantMode` thread, relating its state and the
previous primary-sensor reading: the stored heater flag agrees with the
physical GPIO level, the configured overshoot is non-negative, while the
target is not yet attained the previous reading lies at or below the
target, and once the attained timestamp is set the heater is off. It
holds for the state a freshly constructed thread starts its loop in
(heater off, GPIO driven high at startup, timestamp 0, previous reading
initialised to 0, target from the fermentation record positive). -/
def ConstInv (s : ThreadState) (prev : Int) : Prop :=
  s.heater = s.gpioLow ∧ 0 ≤ s.overshoot ∧
    (s.timestamp = 0 → prev ≤ s.target) ∧ (s.timestamp ≠ 0 → s.heater = false)

/-- State of the supervisor loop in `main` (lines 671-708): the global
`thread` reference (as a thread id), a counter of thread ids handed out,
and the ids of mode threads whose `run()` has not yet finished. -/
structure SupState where
  threadRef : Option Nat
  nextId : Nat
  running : List Nat
deriving Repr, DecidableEq

/-- Events observed by one supervisor poll, plus spontaneous thread
termination. `pollOff`: configuration state read as `FPI_STATE_OFF`.
`pollOn m`: state `FPI_STATE_ON` with mode `m`. `pollUnknown`: any other
state value (logged, ignored). `pollDbError`: `read_configuration` raised
`mdb.Error` (the handler does not touch the thread reference).
`threadStops i`: thread `i` returned from `run()` on its own. -/
inductive SupEvent where
  | pollOff
  | pollOn (mode : Int)
  | pollUnknown (st : Int)
  | pollDbError
  | threadStops (i : Nat)
deriving Repr, DecidableEq

/-- Whether `main` starts a thread for the given mode value (lines
690-698): only `FPI_MODE_IDLE = 0`, `FPI_MODE_CONSTANT = 1` and
`FPI_MODE_GRADUAL = 2` do. -/
def startsThread (mode : Int) : Bool :=
  mode = 0 || mode = 1 || mode = 2

/-- One supervisor transition (lines 675-700). On state OFF with a live
reference: `thread.event.set()`, then `while thread.is_alive():
thread.join(1.0)` (so the thread is no longer running afterwards), then
`thread = None`. On state ON with no reference: construct and `start()`
the mode thread. All other cases leave the reference and the running
threads unchanged. -/
def supStep (s : SupState) (e : SupEvent) : SupState :=
  match e with
  | .pollOff =>
    match s.threadRef with
    | none => s
    | some i => ⟨none, s.nextId, s.running.erase i⟩
  | .pollOn m =>
    match s.threadRef with
    | none =>
      if startsThread m then ⟨some s.nextId, s.nextId + 1, s.running ++ [s.nextId]⟩
      else s
    | some _ => s
  | .pollUnknown _ => s
  | .pollDbError => s
  | .threadStops i => ⟨s.threadRef, s.nextId, s.running.erase i⟩

/-- Iterated supervisor transitions over an event trace. -/
def supRun (s : SupState) : List SupEvent → SupState
  | [] => s
  | e :: es => supRun (supStep s e) es

/-- Supervisor start state: the module global `thread = None`, no mode
thread running. -/
def initSup : SupState := ⟨none, 0, []⟩

/-- Supervisor invariant: every running mode thread is the one the
`thread` global refers to. -/
def SupInv (s : SupState) : Prop :=
  s.running.length ≤ 1 ∧ ∀ j ∈ s.running, s.threadRef = some j

/-- The configuration dictionary built by `read_configuration`
(lines 614-640). -/
structure Config where
  state : Int
  mode : Int
  cycle : Int
  log : Int
deriving Repr, DecidableEq

/-- The body of `except mdb.Error` in `main` (lines 702-706), modelled on
the local variable `conn` of `main` (`none` = never assigned, `some b` =
assigned a value of truthiness `b`). The handler logs, then evaluates
`if conn:`; because `conn = None` later in the same function body makes
`conn` a local of `main`, an unassigned `conn` raises
`UnboundLocalError` here, which is not caught by anything and propagates
out of the loop. In `main` no assignment to `conn` ever completes (the
only one sits after the raising line), so the handler always runs with
`conn` unassigned. -/
def exceptHandlerConn : Option Bool → Except PyError (Option Bool)
  | none => Except.error PyError.unboundLocalError
  | some _ => Except.ok (some false)

/-- One iteration of the `while True:` supervisor loop in `main`
(lines 671-708), reduced to its control flow around errors. `conn` is the
state of the local variable `conn` (always `none` in the program, see
`exceptHandlerConn`), `config` the value of the local `config` from the
previous iteration (`none` on the first iteration), `pollResult` is
`some cfg` when `read_configuration` and the dispatch succeed and `none`
when a `mdb.Error` is raised. A normal iteration ends in
`sleep(float(config.cycle))` and returns the config that the next
iteration starts from; an uncaught exception terminates the loop. -/
def mainIter (conn : Option Bool) (config : Option Config)
    (pollResult : Option Config) : Except PyError Config :=
  match pollResult with
  | some cfg => Except.ok cfg
  | none =>
    match exceptHandlerConn conn with
    | Except.error e => Except.error e
    | Except.ok _ =>
      match config with
      | some cfg => Except.ok cfg
      | none => Except.error PyError.nameError

/-! Helper lemmas (shared between claims). -/

/-- Every call of `_heater_off` drives the GPIO high and raises
`NameError`: the name `HEATER_OFF` resolves neither among the locals of
the method nor among the module globals. -/
theorem heater_off_spec (s : ThreadState) :
    heater_off s = Except.error (PyError.nameError, driveHigh s) := by
  rfl

/-- Case analysis of the climb-phase body: a continuing cycle keeps the
stored heater flag in sync with the GPIO, the climb phase never executes
`break`, and any exception escapes only after the GPIO was driven high. -/
theorem climbStep_gpio (s : ThreadState) (C P ts : Int) (h : s.heater = s.gpioLow) :
    (∀ s1, climbStep s C P ts = StepOut.cont s1 → s1.heater = s1.gpioLow) ∧
    (∀ s1, climbStep s C P ts ≠ StepOut.brk s1) ∧
    (∀ e s1, climbStep s C P ts = StepOut.exn e s1 → s1.gpioLow = false) := by
  unfold climbStep attainedCheck
  rw [heater_off_spec]
  refine ⟨fun s1 hs1 => ?_, fun s1 hs1 => ?_, fun e s1 hs1 => ?_⟩ <;>
    split_ifs at hs1 <;> cases hs1 <;> simp_all [heater_on, driveHigh]

/-- Case analysis of the re-arm check: a continuing cycle keeps the heater
flag and GPIO unchanged (the pulse path never completes), `break` never
happens here, and any exception escapes with the GPIO driven high. -/
theorem rearmCheck_gpio (s : ThreadState) (C P : Int) :
    (∀ s1, rearmCheck s C P = StepOut.cont s1 → s1 = s) ∧
    (∀ s1, rearmCheck s C P ≠ StepOut.brk s1) ∧
    (∀ e s1, rearmCheck s C P = StepOut.exn e s1 → s1.gpioLow = false) := by
  unfold rearmCheck
  rw [heater_off_spec]
  refine ⟨fun s1 hs1 => ?_, fun s1 hs1 => ?_, fun e s1 hs1 => ?_⟩ <;>
    split_ifs at hs1 <;> cases hs1 <;> simp_all [heater_on, driveHigh]

/-- Case analysis of the constant-mode maintain phase: a continuing cycle
leaves the state unchanged, `break` returns the state unchanged (and is
only reachable with the heater flag off), and any exception escapes with
the GPIO driven high. -/
theorem constantMaintain_gpio (s : ThreadState) (C P ts : Int) :
    (∀ s1, constantMaintain s C P ts = StepOut.cont s1 → s1 = s) ∧
    (∀ s1, constantMaintain s C P ts = StepOut.brk s1 → s1 = s ∧ s.heater = false) ∧
    (∀ e s1, constantMaintain s C P ts = StepOut.exn e s1 → s1.gpioLow = false) := by
  have hr := rearmCheck_gpio s C P
  unfold constantMaintain
  rw [heater_off_spec]
  refine ⟨fun s1 hs1 => ?_, fun s1 hs1 => ?_, fun e s1 hs1 => ?_⟩ <;>
    split_ifs at hs1 <;>
      first
        | (cases hs1 <;> simp_all [driveHigh])
        | exact hr.1 s1 hs1
        | exact absurd hs1 (hr.2.1 s1)
        | exact hr.2.2 e s1 hs1

/-- The fields of the thread state other than target, duration and
timestamp are untouched by `_get_next_level`. -/
theorem get_next_level_fields (row : Option LevelRow) (s : ThreadState) :
    (get_next_level row s).2.heater = s.heater ∧
    (get_next_level row s).2.gpioLow = s.gpioLow ∧
    (get_next_level row s).2.state = s.state ∧
    (get_next_level row s).2.timestamp = 0 := by
  cases row <;> simp [get_next_level]

/-- Case analysis of the gradual-mode maintain phase: a continuing cycle
preserves the heater/GPIO agreement, `break` is only reachable with the
heater off (hence, under agreement, the GPIO low), and any exception
escapes with the GPIO driven high. -/
theorem gradualMaintain_gpio (row : Option LevelRow) (s : ThreadState) (C P ts : Int)
    (h : s.heater = s.gpioLow) :
    (∀ s1, gradualMaintain row s C P ts = StepOut.cont s1 → s1.heater = s1.gpioLow) ∧
    (∀ s1, gradualMaintain row s C P ts = StepOut.brk s1 →
      s1.heater = false ∧ s1.gpioLow = false) ∧
    (∀ e s1, gradualMaintain row s C P ts = StepOut.exn e s1 → s1.gpioLow = false) := by
  have hg := get_next_level_fields row s
  unfold gradualMaintain
  refine ⟨fun s1 hs1 => ?_, fun s1 hs1 => ?_, fun e s1 hs1 => ?_⟩
  · split_ifs at hs1
    · rcases hn : get_next_level row s with ⟨b, s2⟩
      rw [hn] at hs1
      rcases b <;> dsimp at hs1
      · rw [heater_off_spec] at hs1
        split_ifs at hs1 <;> cases hs1
      · have h2 := rearmCheck_gpio s2 C P
        have := h2.1 s1 hs1
        subst this
        rw [hn] at hg
        simp only at hg
        rw [hg.1, hg.2.1, h]
    · have h2 := rearmCheck_gpio s C P
      have := h2.1 s1 hs1
      subst this
      exact h
    · have h2 := rearmCheck_gpio s C P
      have := h2.1 s1 hs1
      subst this
      exact h
  · split_ifs at hs1
    · rcases hn : get_next_level row s with ⟨b, s2⟩
      rw [hn] at hs1
      rcases b <;> dsimp at hs1
      · rw [heater_off_spec] at hs1
        split_ifs at hs1 with hh
        cases hs1
        rw [hn] at hg
        simp only at hg
        constructor
        · simpa using hh
        · rw [hg.2.1, ← h, ← hg.1]
          simpa using hh
      · exact absurd hs1 ((rearmCheck_gpio s2 C P).2.1 s1)
    · exact absurd hs1 ((rearmCheck_gpio s C P).2.1 s1)
    · exact absurd hs1 ((rearmCheck_gpio s C P).2.1 s1)
  · split_ifs at hs1
    · rcases hn : get_next_level row s with ⟨b, s2⟩
      rw [hn] at hs1
      rcases b <;> dsimp at hs1
      · rw [heater_off_spec] at hs1
        split_ifs at hs1 <;> cases hs1 <;> simp [driveHigh]
      · exact (rearmCheck_gpio s2 C P).2.2 e s1 hs1
    · exact (rearmCheck_gpio s C P).2.2 e s1 hs1
    · exact (rearmCheck_gpio s C P).2.2 e s1 hs1

/-- Combined case analysis of one constant-mode cycle. -/
theorem constantStep_gpio (s : ThreadState) (C P ts : Int) (h : s.heater = s.gpioLow) :
    (∀ s1, constantStep s C P ts = StepOut.cont s1 → s1.heater = s1.gpioLow) ∧
    (∀ s1, constantStep s C P ts = StepOut.brk s1 →
      s1.heater = false ∧ s1.gpioLow = false) ∧
    (∀ e s1, constantStep s C P ts = StepOut.exn e s1 → s1.gpioLow = false) := by
  unfold constantStep
  split_ifs with hts
  · have hc := climbStep_gpio s C P ts h
    exact ⟨hc.1, fun s1 h1 => absurd h1 (hc.2.1 s1), hc.2.2⟩
  · have hm := constantMaintain_gpio s C P ts
    refine ⟨fun s1 h1 => ?_, fun s1 h1 => ?_, hm.2.2⟩
    · rw [hm.1 s1 h1]; exact h
    · rcases hm.2.1 s1 h1 with ⟨rfl, hh⟩
      exact ⟨hh, by rw [← h]; exact hh⟩

/-- Combined case analysis of one gradual-mode cycle. -/
theorem gradualStep_gpio (row : Option LevelRow) (s : ThreadState) (C P ts : Int)
    (h : s.heater = s.gpioLow) :
    (∀ s1, gradualStep row s C P ts = StepOut.cont s1 → s1.heater = s1.gpioLow) ∧
    (∀ s1, gradualStep row s C P ts = StepOut.brk s1 →
      s1.heater = false ∧ s1.gpioLow = false) ∧
    (∀ e s1, gradualStep row s C P ts = StepOut.exn e s1 → s1.gpioLow = false) := by
  unfold gradualStep
  split_ifs with hts
  · have hc := climbStep_gpio s C P ts h
    exact ⟨hc.1, fun s1 h1 => absurd h1 (hc.2.1 s1), hc.2.2⟩
  · exact gradualMaintain_gpio row s C P ts h

/-- Unfolding of one constant-mode loop iteration when the stop event was
set at the loop condition. -/
theorem constantRun_cons_cancelled (s : ThreadState) (prev : Int) (c : CycleIn)
    (rest : List CycleIn) (hc : c.cancelled = true) :
    constantRun s prev (c :: rest) = RunOut.cancelledExit s prev := by
  simp [constantRun, hc]

/-- Unfolding of one constant-mode loop iteration when the stop event was
not set at the loop condition. -/
theorem constantRun_cons_live (s : ThreadState) (prev : Int) (c : CycleIn)
    (rest : List CycleIn) (hc : c.cancelled = false) :
    constantRun s prev (c :: rest) =
      match constantStep s c.reading prev c.ts with
      | StepOut.cont s1 => constantRun s1 c.reading rest
      | StepOut.brk s1 => RunOut.normalExit s1
      | StepOut.exn e s1 => RunOut.crashed e s1 := by
  simp [constantRun, hc]

/-- Unfolding of one gradual-mode loop iteration when the stop event was
set at the loop condition. -/
theorem gradualRun_cons_cancelled (row : Option LevelRow) (s : ThreadState)
    (prev : Int) (c : CycleIn) (rest : List CycleIn) (hc : c.cancelled = true) :
    gradualRun row s prev (c :: rest) = RunOut.cancelledExit s prev := by
  simp [gradualRun, hc]

/-- Unfolding of one gradual-mode loop iteration when the stop event was
not set at the loop condition. -/
theorem gradualRun_cons_live (row : Option LevelRow) (s : ThreadState)
    (prev : Int) (c : CycleIn) (rest : List CycleIn) (hc : c.cancelled = false) :
    gradualRun row s prev (c :: rest) =
      match gradualStep row s c.reading prev c.ts with
      | StepOut.cont s1 => gradualRun row s1 c.reading rest
      | StepOut.brk s1 => RunOut.normalExit s1
      | StepOut.exn e s1 => RunOut.crashed e s1 := by
  simp [gradualRun, hc]

/-- Along any constant-mode run from a state whose heater flag agrees with
the GPIO, a `break` exit ends with the heater off and any crash ends with
the GPIO driven high. -/
theorem constantRun_gpio (trace : List CycleIn) : ∀ s prev, s.heater = s.gpioLow →
    (∀ s1, constantRun s prev trace = RunOut.normalExit s1 →
      s1.heater = false ∧ s1.gpioLow = false) ∧
    (∀ e s1, constantRun s prev trace = RunOut.crashed e s1 → s1.gpioLow = false) := by
  induction trace with
  | nil =>
    intro s prev h
    exact ⟨fun s1 h1 => (nomatch h1), fun e s1 h1 => (nomatch h1)⟩
  | cons c rest ih =>
    intro s prev h
    have hstep := constantStep_gpio s c.reading prev c.ts h
    refine ⟨fun s1 h1 => ?_, fun e s1 h1 => ?_⟩
    · by_cases hc : c.cancelled = true
      · rw [constantRun_cons_cancelled s prev c rest hc] at h1
        cases h1
      · rw [constantRun_cons_live s prev c rest (by simpa using hc)] at h1
        rcases ho : constantStep s c.reading prev c.ts with s2 | s2 | ⟨e2, s2⟩
        · simp only [ho] at h1
          exact (ih s2 c.reading (hstep.1 s2 ho)).1 s1 h1
        · simp only [ho, RunOut.normalExit.injEq] at h1
          cases h1
          exact hstep.2.1 _ ho
        · simp [ho] at h1
    · by_cases hc : c.cancelled = true
      · rw [constantRun_cons_cancelled s prev c rest hc] at h1
        cases h1
      · rw [constantRun_cons_live s prev c rest (by simpa using hc)] at h1
        rcases ho : constantStep s c.reading prev c.ts with s2 | s2 | ⟨e2, s2⟩
        · simp only [ho] at h1
          exact (ih s2 c.reading (hstep.1 s2 ho)).2 e s1 h1
        · simp [ho] at h1
        · simp only [ho, RunOut.crashed.injEq] at h1
          obtain ⟨he, hs⟩ := h1
          cases hs
          exact hstep.2.2 _ _ ho

/-- Along any gradual-mode run from a state whose heater flag agrees with
the GPIO, a `break` exit ends with the heater off and any crash ends with
the GPIO driven high. -/
theorem gradualRun_gpio (row : Option LevelRow) (trace : List CycleIn) :
    ∀ s prev, s.heater = s.gpioLow →
    (∀ s1, gradualRun row s prev trace = RunOut.normalExit s1 →
      s1.heater = false ∧ s1.gpioLow = false) ∧
    (∀ e s1, gradualRun row s prev trace = RunOut.crashed e s1 → s1.gpioLow = false) := by
  induction trace with
  | nil =>
    intro s prev h
    exact ⟨fun s1 h1 => (nomatch h1), fun e s1 h1 => (nomatch h1)⟩
  | cons c rest ih =>
    intro s prev h
    have hstep := gradualStep_gpio row s c.reading prev c.ts h
    refine ⟨fun s1 h1 => ?_, fun e s1 h1 => ?_⟩
    · by_cases hc : c.cancelled = true
      · rw [gradualRun_cons_cancelled row s prev c rest hc] at h1
        cases h1
      · rw [gradualRun_cons_live row s prev c rest (by simpa using hc)] at h1
        rcases ho : gradualStep row s c.reading prev c.ts with s2 | s2 | ⟨e2, s2⟩
        · simp only [ho] at h1
          exact (ih s2 c.reading (hstep.1 s2 ho)).1 s1 h1
        · simp only [ho, RunOut.normalExit.injEq] at h1
          cases h1
          exact hstep.2.1 _ ho
        · simp [ho] at h1
    · by_cases hc : c.cancelled = true
      · rw [gradualRun_cons_cancelled row s prev c rest hc] at h1
        cases h1
      · rw [gradualRun_cons_live row s prev c rest (by simpa using hc)] at h1
        rcases ho : gradualStep row s c.reading prev c.ts with s2 | s2 | ⟨e2, s2⟩
        · simp only [ho] at h1
          exact (ih s2 c.reading (hstep.1 s2 ho)).2 e s1 h1
        · simp [ho] at h1
        · simp only [ho, RunOut.crashed.injEq] at h1
          obtain ⟨he, hs⟩ := h1
          cases hs
          exact hstep.2.2 _ _ ho

/-- One continuing constant-mode cycle preserves `ConstInv`, the new
previous reading being this cycle's reading; the duration field is
untouched. Requires a positive cycle timestamp (real unix time). -/
theorem constantStep_inv (s : ThreadState) (prev C ts : Int)
    (h : ConstInv s prev) (hts : 0 < ts) :
    ∀ s1, constantStep s C prev ts = StepOut.cont s1 →
      ConstInv s1 C ∧ s1.duration = s.duration := by
  obtain ⟨h1, h2, h3, h4⟩ := h
  intro s1 hstep
  unfold constantStep at hstep
  by_cases htz : s.timestamp = 0
  · rw [if_pos htz] at hstep
    unfold climbStep attainedCheck at hstep
    rw [heater_off_spec] at hstep
    have hpt := h3 htz
    split_ifs at hstep <;> cases hstep <;>
      refine ⟨⟨?_, h2, fun h0 => ?_, fun hne => ?_⟩, ?_⟩ <;>
        simp_all [heater_on] <;> omega
  · rw [if_neg htz] at hstep
    have hhf : s.heater = false := h4 htz
    unfold constantMaintain at hstep
    rw [heater_off_spec] at hstep
    split_ifs at hstep <;>
      first
        | cases hstep
        | (have hs1 := (rearmCheck_gpio s C prev).1 s1 hstep
           cases hs1
           exact ⟨⟨h1, h2, fun h0 => absurd h0 htz, fun _ => hhf⟩, rfl⟩)
        | simp_all

/-- The invariant `ConstInv` is preserved along every live prefix of a constant-mode
run, provided all cycle timestamps are positive. -/
theorem constantRun_inv (trace : List CycleIn) : ∀ s prev, ConstInv s prev →
    (∀ c ∈ trace, 0 < c.ts) →
    ∀ s1 prev1, constantRun s prev trace = RunOut.outOfTrace s1 prev1 →
      ConstInv s1 prev1 ∧ s1.duration = s.duration := by
  induction trace with
  | nil =>
    intro s prev h _ s1 prev1 h1
    cases h1
    exact ⟨h, rfl⟩
  | cons c rest ih =>
    intro s prev h hts s1 prev1 h1
    by_cases hc : c.cancelled = true
    · rw [constantRun_cons_cancelled s prev c rest hc] at h1
      cases h1
    · rw [constantRun_cons_live s prev c rest (by simpa using hc)] at h1
      rcases ho : constantStep s c.reading prev c.ts with s2 | s2 | ⟨e2, s2⟩
      · simp only [ho] at h1
        have hin := constantStep_inv s prev c.reading c.ts ⟨h.1, h.2.1, h.2.2.1, h.2.2.2⟩
          (hts c (by simp)) s2 ho
        have hrest := ih s2 c.reading hin.1 (fun x hx => hts x (by simp [hx])) s1 prev1 h1
        exact ⟨hrest.1, hrest.2.trans hin.2⟩
      · simp [ho] at h1
      · simp [ho] at h1

/-- At any state satisfying `ConstInv` whose attained timestamp is set,
with a positive duration already expired, the constant-mode cycle breaks
out of the loop immediately, with the heater off. -/
theorem constantStep_expiry (s : ThreadState) (P C ts : Int)
    (h : ConstInv s P) (hT : s.timestamp ≠ 0) (hD : 0 < s.duration)
    (hE : s.duration ≤ Int.fdiv (ts - s.timestamp) 60) :
    constantStep s C P ts = StepOut.brk s ∧ s.heater = false ∧ s.gpioLow = false := by
  have hhf : s.heater = false := h.2.2.2 hT
  have hgf : s.gpioLow = false := by rw [← h.1]; exact hhf
  refine ⟨?_, hhf, hgf⟩
  unfold constantStep constantMaintain
  rw [if_neg hT, if_pos hD, if_pos hE, if_neg (by simp [hhf])]

/-- A constant-mode run over an appended trace runs the prefix first and,
if the loop is still live, continues over the suffix. -/
theorem constantRun_append (pre : List CycleIn) : ∀ s prev rest,
    constantRun s prev (pre ++ rest) =
      match constantRun s prev pre with
      | RunOut.outOfTrace s1 prev1 => constantRun s1 prev1 rest
      | r => r := by
  induction pre with
  | nil => intro s prev rest; rfl
  | cons c pre ih =>
    intro s prev rest
    by_cases hc : c.cancelled = true
    · rw [List.cons_append, constantRun_cons_cancelled s prev c (pre ++ rest) hc,
        constantRun_cons_cancelled s prev c pre hc]
    · rw [List.cons_append, constantRun_cons_live s prev c (pre ++ rest) (by simpa using hc),
        constantRun_cons_live s prev c pre (by simpa using hc)]
      rcases ho : constantStep s c.reading prev c.ts with s2 | s2 | ⟨e2, s2⟩
      · simp only [ho]
        exact ih s2 c.reading rest
      · simp only [ho]
      · simp only [ho]

/-- Each supervisor transition preserves the supervisor invariant. -/
theorem supStep_inv (s : SupState) (e : SupEvent) (h : SupInv s) :
    SupInv (supStep s e) := by
  obtain ⟨hlen, href⟩ := h
  cases e with
  | pollOff =>
    cases hr : s.threadRef with
    | none => exact ⟨by simpa [supStep, hr] using hlen, by simpa [supStep, hr] using href⟩
    | some i =>
      have hnil : s.running.erase i = [] := by
        cases hrun : s.running with
        | nil => rfl
        | cons a t =>
          have ha := href a (by rw [hrun]; exact List.mem_cons_self a t)
          rw [hr] at ha
          cases ha
          have ht : t = [] := by
            rw [hrun] at hlen
            simpa [Nat.succ_le_succ_iff] using hlen
          simp [hrun, ht]
      simp [SupInv, supStep, hr, hnil]
  | pollOn m =>
    cases hr : s.threadRef with
    | some i => exact ⟨by simpa [supStep, hr] using hlen, by simpa [supStep, hr] using href⟩
    | none =>
      have hnil : s.running = [] := by
        cases hrun : s.running with
        | nil => rfl
        | cons a t =>
          have ha := href a (by rw [hrun]; exact List.mem_cons_self a t)
          rw [hr] at ha
          cases ha
      by_cases hm : startsThread m = true
      · simp [SupInv, supStep, hr, hm, hnil]
      · have hm2 : startsThread m = false := by simpa using hm
        exact ⟨by simpa [supStep, hr, hm2] using hlen, by simpa [supStep, hr, hm2] using href⟩
  | pollUnknown st => exact ⟨hlen, href⟩
  | pollDbError => exact ⟨hlen, href⟩
  | threadStops i =>
    refine ⟨le_trans (List.Sublist.length_le (List.erase_sublist i s.running)) hlen,
      fun j hj => href j (List.mem_of_mem_erase hj)⟩

/-- The supervisor invariant holds after any event trace from an invariant
state. -/
theorem supRun_inv (es : List SupEvent) : ∀ s, SupInv s → SupInv (supRun s es) := by
  induction es with
  | nil => intro s h; exact h
  | cons e es ih => intro s h; exact ih (supStep s e) (supStep_inv s e h)

/-! Claim theorems. -/

/-- Claim C1 (amended): from any thread state whose stored heater flag
agrees with the GPIO line, a constant- or gradual-mode task that
terminates by duration/level exhaustion (normal `break` exit reaching
the epilogue) or by an uncaught exception ends with the GPIO driven high
(heater off), and the process-signal path forces the GPIO high after
joining the thread; a termination by stop-event cancellation, however,
leaves the heater in its last commanded state, which can be ON. -/
theorem c1_terminal_heater_state (s : ThreadState) (prev : Int)
    (trace : List CycleIn) (row : Option LevelRow) (h : s.heater = s.gpioLow) :
    (∀ s1, constantRun s prev trace = RunOut.normalExit s1 → s1.gpioLow = false) ∧
    (∀ e s1, constantRun s prev trace = RunOut.crashed e s1 → s1.gpioLow = false) ∧
    (∀ s1, gradualRun row s prev trace = RunOut.normalExit s1 → s1.gpioLow = false) ∧
    (∀ e s1, gradualRun row s prev trace = RunOut.crashed e s1 → s1.gpioLow = false) ∧
    (∀ r : RunOut, on_exit r = false) := by
  have hcst := constantRun_gpio trace s prev h
  have hgrd := gradualRun_gpio row trace s prev h
  exact ⟨fun s1 h1 => (hcst.1 s1 h1).2, hcst.2, fun s1 h1 => (hgrd.1 s1 h1).2,
    hgrd.2, fun r => rfl⟩

/-- Witness for the amended C1 theorem: a constant-mode task with target
20.00, duration 1 minute, attained at t = 100, exits normally at t = 161
with the GPIO high. -/
theorem c1_terminal_heater_state_witness :
    constantRun ⟨false, false, 0, 2000, 1, 0, 100⟩ 2100 [⟨false, 2000, 161⟩] =
      RunOut.normalExit ⟨false, false, 0, 2000, 1, 0, 100⟩ ∧
    (⟨false, false, 0, 2000, 1, 0, 100⟩ : ThreadState).gpioLow = false := by
  constructor
  · decide
  · exact (c1_terminal_heater_state ⟨false, false, 0, 2000, 1, 0, 100⟩ 2100
      [⟨false, 2000, 161⟩] none rfl).1 _ (by decide)

/-- Counterexample to claim C1 as stated: constant mode, target 20.00,
overshoot 0.50. Cycle 1 reads 18.00 and commands the heater ON; at the
top of cycle 2 the stop event is set, the loop exits to the
configuration-reset epilogue without touching the heater, and the task
ends with the GPIO still low, that is with the heater physically ON. -/
theorem c1_cancellation_keeps_heater_on :
    constantRun ⟨false, false, 0, 2000, 0, 50, 0⟩ 0
        [⟨false, 1800, 100⟩, ⟨true, 1900, 110⟩] =
      RunOut.cancelledExit ⟨true, true, 1, 2000, 0, 50, 0⟩ 1800 ∧
    (⟨true, true, 1, 2000, 0, 50, 0⟩ : ThreadState).gpioLow = true := by
  exact ⟨by decide, rfl⟩

/-- Claim C2 evaluation: with the two-level table
[(20.00, 60 min), (30.00, 60 min)], level 1 consumed (attained timestamp
set, 60 minutes expired), `_get_next_level` resets the working target to
0 and then re-selects the first level column again (target 20.00,
duration 60) instead of advancing to the 30.00 level, and the expiry
cycle continues with the consumed level re-installed and the attained
timestamp cleared. -/
theorem c2_level_advance_reselects_first :
    get_next_level (some [(some 2000, some 60), (some 3000, some 60)])
        ⟨false, false, 0, 2000, 60, 50, 40⟩ =
      (true, ⟨false, false, 0, 2000, 60, 50, 0⟩) ∧
    gradualStep (some [(some 2000, some 60), (some 3000, some 60)])
        ⟨false, false, 0, 2000, 60, 50, 40⟩ 2005 2010 3640 =
      StepOut.cont ⟨false, false, 0, 2000, 60, 50, 0⟩ := by
  exact ⟨by decide, by decide⟩

/-- Claim C3 (confirmed): in constant mode with duration D > 0, from a
valid start (`ConstInv`, positive cycle timestamps), at the first live
cycle at which the attained timestamp is set and the elapsed whole
minutes since it reach the duration, the loop executes `break`
immediately: the run ends in the normal exit (reaching the
configuration-reset epilogue, not an exception) within that cycle, and
the heater is off, both as stored flag and on the GPIO line. -/
theorem c3_duration_expiry_normal_exit (s0 : ThreadState) (prev0 : Int)
    (pre : List CycleIn) (c : CycleIn) (rest : List CycleIn)
    (s1 : ThreadState) (prev1 : Int)
    (hInv : ConstInv s0 prev0) (hTs : ∀ x ∈ pre, 0 < x.ts)
    (hPre : constantRun s0 prev0 pre = RunOut.outOfTrace s1 prev1)
    (hCancel : c.cancelled = false) (hAttained : s1.timestamp ≠ 0)
    (hD : 0 < s1.duration)
    (hExp : s1.duration ≤ Int.fdiv (c.ts - s1.timestamp) 60) :
    constantRun s0 prev0 (pre ++ c :: rest) = RunOut.normalExit s1 ∧
      s1.heater = false ∧ s1.gpioLow = false := by
  have hin := constantRun_inv pre s0 prev0 hInv hTs s1 prev1 hPre
  have hexp := constantStep_expiry s1 prev1 c.reading c.ts hin.1 hAttained hD hExp
  refine ⟨?_, hexp.2.1, hexp.2.2⟩
  rw [constantRun_append pre s0 prev0 (c :: rest), hPre]
  dsimp only
  rw [constantRun_cons_live s1 prev1 c rest hCancel]
  simp only [hexp.1]

/-- Witness for the C3 theorem: target 20.00, duration 1 minute, the
reading 21.00 at t = 100 attains the target with the heater off; at
t = 161 one minute has elapsed and the run ends normally, heater off. -/
theorem c3_duration_expiry_normal_exit_witness :
    constantRun ⟨false, false, 0, 2000, 1, 0, 0⟩ 0
        ([⟨false, 2100, 100⟩] ++ ⟨false, 2000, 161⟩ :: []) =
      RunOut.normalExit ⟨false, false, 0, 2000, 1, 0, 100⟩ ∧
    (⟨false, false, 0, 2000, 1, 0, 100⟩ : ThreadState).heater = false ∧
    (⟨false, false, 0, 2000, 1, 0, 100⟩ : ThreadState).gpioLow = false := by
  exact c3_duration_expiry_normal_exit ⟨false, false, 0, 2000, 1, 0, 0⟩ 0
    [⟨false, 2100, 100⟩] ⟨false, 2000, 161⟩ []
    ⟨false, false, 0, 2000, 1, 0, 100⟩ 2100
    ⟨rfl, by decide, fun _ => by decide, fun _ => rfl⟩
    (by decide) (by decide) rfl (by decide) (by decide) (by decide)

/-- Claim C4 (confirmed): in any climb-phase cycle (attained timestamp
still 0) of constant or gradual mode whose current reading is strictly
below target minus overshoot, the cycle completes normally and ends with
the heater commanded ON (stored flag and GPIO), whether the heater was ON
or OFF before; both modes behave identically on such a cycle. -/
theorem c4_cold_reading_heats (s : ThreadState) (C P ts : Int)
    (row : Option LevelRow) (hcons : s.heater = s.gpioLow)
    (htz : s.timestamp = 0) (hcold : C < s.target - s.overshoot) :
    (constantStep s C P ts).isCont = true ∧
    (constantStep s C P ts).stateOf.heater = true ∧
    (constantStep s C P ts).stateOf.gpioLow = true ∧
    gradualStep row s C P ts = constantStep s C P ts := by
  have hmode : constantStep s C P ts = climbStep s C P ts := by
    simp [constantStep, htz]
  have hmode2 : gradualStep row s C P ts = climbStep s C P ts := by
    simp [gradualStep, htz]
  refine ⟨?_, ?_, ?_, by rw [hmode, hmode2]⟩ <;>
    rw [hmode] <;>
    unfold climbStep attainedCheck <;>
    rw [if_pos hcold] <;>
    cases hh : s.heater <;>
      split_ifs <;> simp_all [heater_on, StepOut.stateOf, StepOut.isCont]

/-- Witness for the C4 theorem with the heater already ON: reading 19.40,
target 20.00, overshoot 0.50. -/
theorem c4_cold_reading_heats_witness :
    (constantStep ⟨true, true, 1, 2000, 0, 50, 0⟩ 1940 1950 120).isCont = true ∧
    (constantStep ⟨true, true, 1, 2000, 0, 50, 0⟩ 1940 1950 120).stateOf.heater = true ∧
    (constantStep ⟨true, true, 1, 2000, 0, 50, 0⟩ 1940 1950 120).stateOf.gpioLow = true ∧
    gradualStep none ⟨true, true, 1, 2000, 0, 50, 0⟩ 1940 1950 120 =
      constantStep ⟨true, true, 1, 2000, 0, 50, 0⟩ 1940 1950 120 :=
  c4_cold_reading_heats ⟨true, true, 1, 2000, 0, 50, 0⟩ 1940 1950 120 none
    rfl rfl (by decide)

/-- Claim C5 evaluation at the failing input: constant mode, target
20.00, overshoot 0.50, heater switched ON at the first cycle (reading
18.00); at the second cycle the reading 20.10 reaches the target for the
first time, but the climb branch for a non-cold, non-dropping reading
with the heater ON calls `_heater_off`, whose `NameError` kills the
thread before the attained check runs, so the attained timestamp is
still 0 on the first cycle whose reading is at or above the target. -/
theorem c5_attained_timestamp_not_set :
    constantRun ⟨false, false, 0, 2000, 0, 50, 0⟩ 0
        [⟨false, 1800, 100⟩, ⟨false, 2010, 160⟩] =
      RunOut.crashed PyError.nameError ⟨true, false, 1, 2000, 0, 50, 0⟩ ∧
    (⟨true, false, 1, 2000, 0, 50, 0⟩ : ThreadState).timestamp = 0 := by
  exact ⟨by decide, rfl⟩

/-- Claim C6 evaluation at the failing inputs. First: a climb cycle with
reading 19.60 at or above target minus overshoot (19.50), not below the
previous reading (18.50) and the heater ON raises `NameError` inside
`_heater_off`, and the state stays HEATING, never becoming
WAITING_FOR_PEAK (the source line is a no-op `==` comparison). Second: a
maintain-phase re-arm pulse (reading 19.80 at or below 19.90 and
dropping) crashes inside the closing `_heater_off`, so the state again
stays HEATING and never becomes WAITING_FOR_TROUGH (the assignment after
the pulse, besides being unreachable, assigns WAITING_FOR_PEAK). -/
theorem c6_state_machine_never_reaches_waiting :
    constantStep ⟨true, true, 1, 2000, 0, 50, 0⟩ 1960 1850 120 =
      StepOut.exn PyError.nameError ⟨true, false, 1, 2000, 0, 50, 0⟩ ∧
    (⟨true, false, 1, 2000, 0, 50, 0⟩ : ThreadState).state ≠ WAITING_FOR_PEAK ∧
    constantStep ⟨false, false, 1, 2000, 0, 50, 50⟩ 1980 1990 120 =
      StepOut.exn PyError.nameError ⟨true, false, 1, 2000, 0, 50, 50⟩ ∧
    (⟨true, false, 1, 2000, 0, 50, 50⟩ : ThreadState).state ≠ WAITING_FOR_TROUGH := by
  exact ⟨by decide, by decide, by decide, by decide⟩

/-- Counterexample to claim C7 as stated: on the documented example trace
(target 20.00, overshoot 0.50, readings 18.00, 18.50, 19.60, 19.90,
20.00), the third cycle has its reading 19.60 at or above target minus
overshoot (19.50) and not below the previous reading, with the heater ON,
so the heater is commanded OFF there and `_heater_off` raises
`NameError`: the heater is not ON at the end of the third and fourth
cycles, the fifth cycle never runs, and the attained timestamp is never
set. -/
theorem c7_third_cycle_turns_heater_off :
    constantRun ⟨false, false, 0, 2000, 0, 50, 0⟩ 0
        [⟨false, 1800, 100⟩, ⟨false, 1850, 110⟩, ⟨false, 1960, 120⟩,
         ⟨false, 1990, 130⟩, ⟨false, 2000, 140⟩] =
      RunOut.crashed PyError.nameError ⟨true, false, 1, 2000, 0, 50, 0⟩ ∧
    (⟨true, false, 1, 2000, 0, 50, 0⟩ : ThreadState).gpioLow = false ∧
    (⟨true, false, 1, 2000, 0, 50, 0⟩ : ThreadState).timestamp = 0 := by
  exact ⟨by decide, rfl, rfl⟩

/-- Claim C7 (amended): on the example trace the heater is ON at the end
of the first two cycles only; at the third cycle (reading 19.60 at or
above 19.50 and rising, heater ON) the GPIO is driven high and the task
aborts with the `_heater_off` `NameError`, so cycles four and five never
execute and the attained timestamp is never set. -/
theorem c7_example_trace_behavior :
    constantRun ⟨false, false, 0, 2000, 0, 50, 0⟩ 0 [⟨false, 1800, 100⟩] =
      RunOut.outOfTrace ⟨true, true, 1, 2000, 0, 50, 0⟩ 1800 ∧
    constantRun ⟨false, false, 0, 2000, 0, 50, 0⟩ 0
        [⟨false, 1800, 100⟩, ⟨false, 1850, 110⟩] =
      RunOut.outOfTrace ⟨true, true, 1, 2000, 0, 50, 0⟩ 1850 ∧
    constantRun ⟨false, false, 0, 2000, 0, 50, 0⟩ 0
        [⟨false, 1800, 100⟩, ⟨false, 1850, 110⟩, ⟨false, 1960, 120⟩,
         ⟨false, 1990, 130⟩, ⟨false, 2000, 140⟩] =
      RunOut.crashed PyError.nameError ⟨true, false, 1, 2000, 0, 50, 0⟩ := by
  exact ⟨by decide, by decide, by decide⟩

/-- Claim C8 (confirmed): over every trace of supervisor polls and
spontaneous thread terminations from the start state (no thread
reference, nothing running), the number of running Controller Task
threads is at most one: the supervisor starts a thread only when its
reference is empty, and on an ON-to-OFF transition it joins the thread
to completion before clearing the reference. -/
theorem c8_at_most_one_running (es : List SupEvent) :
    (supRun initSup es).running.length ≤ 1 :=
  (supRun_inv es initSup ⟨by decide, fun j hj => absurd hj (List.not_mem_nil j)⟩).1

/-- Claim C9 evaluation: when `read_configuration` raises `mdb.Error`
during a supervisor poll, the `except` handler evaluates `if conn:` with
the local `conn` unassigned (its only assignment comes later in the
handler), so the iteration raises `UnboundLocalError`, which nothing
catches, and the supervisor loop terminates; a successful poll returns
normally. -/
theorem c9_db_error_crashes_supervisor :
    (∀ config : Option Config, mainIter none config none =
      Except.error PyError.unboundLocalError) ∧
    (∀ (config : Option Config) (cfg : Config),
      mainIter none config (some cfg) = Except.ok cfg) :=
  ⟨fun _ => rfl, fun _ _ => rfl⟩

/-- Claim C10 (confirmed): every `_heater_off` call sets the heater GPIO
line HIGH (relay off) and then raises `NameError` from the unbound bare
name `HEATER_OFF` (which resolves neither among the method locals nor
among the module globals), so the call never returns normally and the
stored heater flag is never updated by this method. -/
theorem c10_heater_off_never_returns (s : ThreadState) :
    resolveName heaterOffLocals heaterOffName = false ∧
    heater_off s = Except.error (PyError.nameError, driveHigh s) ∧
    (driveHigh s).gpioLow = false ∧ (driveHigh s).heater = s.heater :=
  ⟨by decide, heater_off_spec s, rfl, rfl⟩
